import Mathlib

/-!
Verification of the ovhctl repository: a shallow embedding of the request
signer, the authenticated transport, the DNS reconciler, the apply loop,
the resource collectors and the login bootstrap, together with theorems
settling the specification claims.
-/

namespace Ovhctl

/-! ## Bytes, 32-bit arithmetic and SHA-1 (model of the external crypto crate) -/

/-- Truncation to a 32-bit word. -/
def w32 (n : Nat) : Nat := n % 4294967296

/-- Left rotation of a 32-bit word by `b` bits. -/
def rotl (n b : Nat) : Nat := w32 ((n <<< b) ||| (n >>> (32 - b)))

/-- Big-endian byte decomposition of `n` into `k` bytes. -/
def beBytes (k n : Nat) : List Nat :=
  (List.range k).map (fun i => (n >>> (8 * (k - 1 - i))) % 256)

/-- Big-endian 32-bit word from four bytes (`getD` defaulting to zero). -/
def be32 (bytes : List Nat) : Nat :=
  bytes.getD 0 0 * 16777216 + bytes.getD 1 0 * 65536 + bytes.getD 2 0 * 256 + bytes.getD 3 0

/-- SHA-1 padding: append `0x80`, zero bytes, and the 64-bit bit length so the
total length is a multiple of 64 bytes. -/
def sha1Pad (msg : List Nat) : List Nat :=
  msg ++ [128] ++ List.replicate ((64 - ((msg.length + 9) % 64)) % 64) 0 ++ beBytes 8 (msg.length * 8)

/-- Split a byte list into successive 64-byte chunks. -/
def chunks64 (l : List Nat) : List (List Nat) :=
  if h : l = [] then [] else
    have : (l.drop 64).length < l.length := by
      rw [List.length_drop]
      exact Nat.sub_lt (List.length_pos.mpr h) (by omega)
    l.take 64 :: chunks64 (l.drop 64)
termination_by l.length

/-- The first 16 32-bit words of a chunk. -/
def sha1Words (chunk : List Nat) : List Nat :=
  (List.range 16).map (fun i => be32 ((chunk.drop (4 * i)).take 4))

/-- Extend the 16-word schedule to 80 words. -/
def sha1Extend (w : List Nat) : List Nat :=
  (List.range 64).foldl
    (fun acc _ =>
      acc ++ [rotl (Nat.xor (Nat.xor (acc.getD (acc.length - 3) 0) (acc.getD (acc.length - 8) 0))
        (Nat.xor (acc.getD (acc.length - 14) 0) (acc.getD (acc.length - 16) 0))) 1])
    w

/-- The round function and constant for round `i`. -/
def sha1F (i b c d : Nat) : Nat × Nat :=
  if i < 20 then ((b &&& c) ||| ((Nat.xor b 4294967295) &&& d), 1518500249)
  else if i < 40 then (Nat.xor (Nat.xor b c) d, 1859775393)
  else if i < 60 then ((b &&& c) ||| (b &&& d) ||| (c &&& d), 2400959708)
  else (Nat.xor (Nat.xor b c) d, 3395469782)

/-- One SHA-1 compression round. -/
def sha1Round (st : Nat × Nat × Nat × Nat × Nat) (i wi : Nat) : Nat × Nat × Nat × Nat × Nat :=
  match st with
  | (a, b, c, d, e) =>
    let fk := sha1F i b c d
    (w32 (rotl a 5 + fk.1 + e + fk.2 + wi), a, rotl b 30, c, d)

/-- Process one 64-byte chunk, updating the five-word state. -/
def sha1Chunk (h : Nat × Nat × Nat × Nat × Nat) (chunk : List Nat) : Nat × Nat × Nat × Nat × Nat :=
  let w := sha1Extend (sha1Words chunk)
  let st := ((List.range 80).zip w).foldl (fun st p => sha1Round st p.1 p.2) h
  match h, st with
  | (h0, h1, h2, h3, h4), (a, b, c, d, e) =>
    (w32 (h0 + a), w32 (h1 + b), w32 (h2 + c), w32 (h3 + d), w32 (h4 + e))

/-- SHA-1 digest of a byte list, as a list of 20 bytes. -/
def sha1 (msg : List Nat) : List Nat :=
  let h := (chunks64 (sha1Pad msg)).foldl sha1Chunk
    (1732584193, 4023233417, 2562383102, 271733878, 3285377520)
  match h with
  | (h0, h1, h2, h3, h4) =>
    beBytes 4 h0 ++ beBytes 4 h1 ++ beBytes 4 h2 ++ beBytes 4 h3 ++ beBytes 4 h4

/-- Lower-case hex digit for a nibble. -/
def hexDigit (n : Nat) : Char := if n < 10 then Char.ofNat (48 + n) else Char.ofNat (87 + n)

/-- Lower-case hex string of a byte list. -/
def hexStr (bytes : List Nat) : String :=
  ⟨(bytes.map (fun b => [hexDigit (b / 16), hexDigit (b % 16)])).flatten⟩

/-- UTF-8 encoding of a single character. -/
def charUtf8 (c : Char) : List Nat :=
  let n := c.toNat
  if n < 128 then [n]
  else if n < 2048 then [192 + n / 64, 128 + n % 64]
  else if n < 65536 then [224 + n / 4096, 128 + (n / 64) % 64, 128 + n % 64]
  else [240 + n / 262144, 128 + (n / 4096) % 64, 128 + (n / 64) % 64, 128 + n % 64]

/-- UTF-8 byte encoding of a string. -/
def utf8Bytes (s : String) : List Nat := (s.data.map charUtf8).flatten

theorem utf8Bytes_append (s t : String) : utf8Bytes (s ++ t) = utf8Bytes s ++ utf8Bytes t := by
  simp [utf8Bytes, String.data_append]

/-! ## The streaming hasher of the external crypto crate

The Rust code uses `crypto::sha1::Sha1` through `input_str` and `result_str`.
The streaming interface accumulates the bytes fed so far; the final digest is
the SHA-1 digest of the whole accumulated input. -/

structure Sha1State where
  buf : List Nat

def Sha1State.new : Sha1State := ⟨[]⟩

def Sha1State.input_str (h : Sha1State) (s : String) : Sha1State := ⟨h.buf ++ utf8Bytes s⟩

def Sha1State.result_str (h : Sha1State) : String := hexStr (sha1 h.buf)

/-! ## Client configuration and the request signer (src/ovh/mod.rs) -/

structure ClientConfiguration where
  endpoint : String
  application_key : String
  application_secret : String
  consumer_key : String
deriving DecidableEq

/-- `Client::hash` from src/ovh/mod.rs lines 417-435: feed the secret, the
consumer key, the method, the url, the body and the timestamp, separated by
`+`, into a fresh SHA-1 hasher, and prefix the hex digest with `$1$`. -/
def Client.hash (config : ClientConfiguration) (method path body : String) (timestamp : Int) : String :=
  let hasher := Sha1State.new
  let hasher := hasher.input_str config.application_secret
  let hasher := hasher.input_str ("+")
  let hasher := hasher.input_str config.consumer_key
  let hasher := hasher.input_str ("+")
  let hasher := hasher.input_str method
  let hasher := hasher.input_str ("+")
  let hasher := hasher.input_str path
  let hasher := hasher.input_str ("+")
  let hasher := hasher.input_str body
  let hasher := hasher.input_str ("+")
  let hasher := hasher.input_str (toString timestamp)
  ("$1$") ++ hasher.result_str

/-! ## Authenticated transport: request building and response handling
(src/ovh/mod.rs, `RestClient for Client`) -/

/-- An HTTP request as assembled by the transport: method, absolute url,
headers in insertion order, and body. -/
structure HttpRequest where
  method : String
  uri : String
  headers : List (String × String)
  body : String
deriving DecidableEq

/-- An HTTP response as seen by the transport: numeric status and body text. -/
structure HttpResponse where
  status : Nat
  body : String
deriving DecidableEq

/-- `StatusCode::is_success` of the external http crate: 2xx. -/
def statusIsSuccess (s : Nat) : Bool := 200 ≤ s && s < 300

/-- The fixed user-agent string `{program-name}/{version}`. -/
def userAgent : String := ("ovhctl/2.1.1")

def hasHeader (req : HttpRequest) (name : String) : Bool :=
  req.headers.any (fun h => h.1 == name)

/-- `Client::post` request assembly (src/ovh/mod.rs lines 149-179): the body
is the serialized object; a `Content-Type` header is added when the serialized
form differs from `"\x22\x22"` (the JSON encoding of the empty string),
otherwise the body is replaced by the empty string. `serialized` is the output
of `serde_json::to_string`. -/
def Client.post_request (config : ClientConfiguration) (path serialized : String) (timestamp : Int) : HttpRequest :=
  let uri := config.endpoint ++ "/" ++ path
  let ct : List (String × String) :=
    if ("\"\"") ≠ serialized then [(("Content-Type"), ("application/json"))] else []
  let body := if ("\"\"") ≠ serialized then serialized else ("")
  { method := ("POST")
    uri := uri
    headers := ct ++
      [(("X-Ovh-Application"), config.application_key),
       (("X-Ovh-Timestamp"), toString timestamp),
       (("X-Ovh-Consumer"), config.consumer_key),
       (("X-Ovh-Signature"), Client.hash config ("POST") uri body timestamp),
       (("User-Agent"), userAgent)]
    body := body }

/-- `Client::put` request assembly (src/ovh/mod.rs lines 209-241): same
conditional `Content-Type` as `post`, but the builder chain then adds a
further unconditional `Content-Type` header and the application header twice. -/
def Client.put_request (config : ClientConfiguration) (path serialized : String) (timestamp : Int) : HttpRequest :=
  let uri := config.endpoint ++ "/" ++ path
  let ct : List (String × String) :=
    if ("\"\"") ≠ serialized then [(("Content-Type"), ("application/json"))] else []
  let body := if ("\"\"") ≠ serialized then serialized else ("")
  { method := ("PUT")
    uri := uri
    headers := ct ++
      [(("Content-Type"), ("application/json")),
       (("X-Ovh-Application"), config.application_key),
       (("X-Ovh-Application"), config.application_key),
       (("X-Ovh-Timestamp"), toString timestamp),
       (("X-Ovh-Consumer"), config.consumer_key),
       (("X-Ovh-Signature"), Client.hash config ("PUT") uri body timestamp),
       (("User-Agent"), userAgent)]
    body := body }

/-- `Client::delete` response handling (src/ovh/mod.rs lines 271-310): a
response whose status is neither 2xx nor 404 yields an error built from the
url, the numeric status and the raw body text; otherwise the call returns
unit. -/
def Client.delete_handle (config : ClientConfiguration) (path : String) (resp : HttpResponse) : Except String Unit :=
  if ¬ (statusIsSuccess resp.status = true) ∧ resp.status ≠ 404 then
    Except.error (("could not execute the request '") ++ (config.endpoint ++ ("/") ++ path) ++ ("', got '") ++
      toString resp.status ++ ("', ") ++ resp.body)
  else
    Except.ok ()

/-! ## Data model (src/ovh/cloud/mod.rs, src/ovh/domain.rs)

`IpAddr` and `IpNetwork` come from the standard library and the `ipnetwork`
crate; they are modelled concretely with their textual rendering and masked
prefix containment. -/

inductive IpAddr where
  | v4 (a b c d : Nat)
  | v6 (s0 s1 s2 s3 s4 s5 s6 s7 : Nat)
deriving DecidableEq

/-- Lower-case hex rendering of a natural number, no leading zeros. -/
def natHex (n : Nat) : String :=
  if h : n < 16 then ⟨[hexDigit n]⟩ else
    have : n / 16 < n := Nat.div_lt_self (by omega) (by omega)
    natHex (n / 16) ++ ⟨[hexDigit (n % 16)]⟩
termination_by n

/-- Textual form of an address (model of the std `Display`; v6 rendered
uncompressed). -/
def ipToString : IpAddr → String
  | .v4 a b c d =>
    toString a ++ (".") ++ toString b ++ (".") ++ toString c ++ (".") ++ toString d
  | .v6 s0 s1 s2 s3 s4 s5 s6 s7 =>
    natHex s0 ++ (":") ++ natHex s1 ++ (":") ++ natHex s2 ++ (":") ++ natHex s3 ++ (":") ++
      natHex s4 ++ (":") ++ natHex s5 ++ (":") ++ natHex s6 ++ (":") ++ natHex s7

/-- Numeric value of an address (32 or 128 bits). -/
def ipBits : IpAddr → Nat
  | .v4 a b c d => ((a % 256) <<< 24) + ((b % 256) <<< 16) + ((c % 256) <<< 8) + (d % 256)
  | .v6 s0 s1 s2 s3 s4 s5 s6 s7 =>
    ((s0 % 65536) <<< 112) + ((s1 % 65536) <<< 96) + ((s2 % 65536) <<< 80) +
      ((s3 % 65536) <<< 64) + ((s4 % 65536) <<< 48) + ((s5 % 65536) <<< 32) +
      ((s6 % 65536) <<< 16) + (s7 % 65536)

def IpAddr.isV4 : IpAddr → Bool
  | .v4 _ _ _ _ => true
  | _ => false

/-- A CIDR network prefix (model of the `ipnetwork` crate). -/
structure IpNetwork where
  addr : IpAddr
  prefix_len : Nat
deriving DecidableEq

/-- `IpNetwork::contains` of the `ipnetwork` crate: same family and equal
high `prefix_len` bits. -/
def IpNetwork.contains (net : IpNetwork) (ip : IpAddr) : Bool :=
  match net.addr, ip with
  | .v4 _ _ _ _, .v4 _ _ _ _ =>
    ipBits ip >>> (32 - min net.prefix_len 32) == ipBits net.addr >>> (32 - min net.prefix_len 32)
  | .v6 _ _ _ _ _ _ _ _, .v6 _ _ _ _ _ _ _ _ =>
    ipBits ip >>> (128 - min net.prefix_len 128) == ipBits net.addr >>> (128 - min net.prefix_len 128)
  | _, _ => false

/-- `contains` from src/util/net.rs lines 8-16: return the first cidr of the
list containing the address, if any. -/
def netContains (cidrs : List IpNetwork) (ip : IpAddr) : Option IpNetwork :=
  cidrs.find? (fun cidr => cidr.contains ip)

/-- `Record` from src/ovh/domain.rs lines 77-91. -/
structure Record where
  id : Option Int
  field_type : String
  sub_domain : String
  ttl : Option Int
  zone : String
  target : String
deriving DecidableEq

/-- `PartialEq for Record` from src/ovh/domain.rs lines 93-100: equality over
`field_type`, `sub_domain`, `zone` and `target` only. -/
def recordEq (a b : Record) : Bool :=
  a.field_type == b.field_type && a.sub_domain == b.sub_domain &&
    a.zone == b.zone && a.target == b.target

/-- `IpAddress` from src/ovh/cloud/mod.rs lines 94-106. -/
structure IpAddress where
  ip : IpAddr
  kind : String
  version : Int
  network_id : String
  gateway_ip : Option String
deriving DecidableEq

/-- `Instance` from src/ovh/cloud/mod.rs lines 176-194. -/
structure Instance where
  id : String
  name : String
  ip_addresses : List IpAddress
  flavor_id : String
  image_id : String
  region : String
  status : String
  plan_code : String
deriving DecidableEq

/-- `Tenant` from src/ovh/cloud/mod.rs lines 16-30. -/
structure Tenant where
  project_id : String
  description : String
  plan_code : String
  unleash : Bool
  status : String
  access : String
deriving DecidableEq

/-- `Zone` from src/ovh/domain.rs lines 13-23. -/
structure Zone where
  name : String
  dnssec_supported : Bool
  has_dns_anycast : Bool
  name_servers : List String
deriving DecidableEq

/-! ## The reconciler (src/cmd/domain.rs, `sync_records` lines 129-181) -/

/-- Rust `str::trim_end_matches` on character lists: repeatedly remove the
pattern from the end while it is a suffix. The fuel argument only bounds the
number of removals; `l.length` removals always suffice. -/
def trimEndAux (pat : List Char) : Nat → List Char → List Char
  | 0, l => l
  | fuel + 1, l =>
    if pat ≠ [] ∧ pat <:+ l then trimEndAux pat fuel (l.take (l.length - pat.length)) else l

def trimEndList (l pat : List Char) : List Char := trimEndAux pat l.length l

/-- Rust `str::trim_end_matches` with a string pattern. -/
def trimEndMatches (s pat : String) : String := ⟨trimEndList s.data pat.data⟩

/-- Modelled from the spec: `domain::contains`, called by `sync_records` at
src/cmd/domain.rs line 131 but absent from src/, looks up "whether an
existing record already targets this exact address value within the zone
(`target == address.ip` as string ...)": the first record of the list whose
target equals the textual address. -/
def domainContains (records : List Record) (ip : IpAddr) : Option Record :=
  records.find? (fun record => record.target == ipToString ip)

/-- The field type choice of `sync_records` (src/cmd/domain.rs lines
148-152): `A` for version 4, `AAAA` for version 6, skip otherwise. -/
def fieldTypeOf (version : Int) : Option String :=
  if version = 4 then some ("A") else if version = 6 then some ("AAAA") else none

/-- The body of the per-address loop of `sync_records` (src/cmd/domain.rs
lines 130-176), returning the records this address pushes onto
`records_to_delete` and `records_to_create`. -/
def processAddress (records : List Record) (notInCidrs : List IpNetwork) (zone instanceName : String) (address : IpAddress) : List Record × List Record :=
  let record := domainContains records address.ip
  if address.kind ≠ ("public") then
    (record.toList, [])
  else if (netContains notInCidrs address.ip).isSome then
    (record.toList, [])
  else
    match fieldTypeOf address.version with
    | none => ([], [])
    | some ft =>
      let newRecord : Record :=
        { id := none
          field_type := ft
          sub_domain := trimEndMatches instanceName ((".") ++ zone)
          ttl := none
          zone := zone
          target := ipToString address.ip }
      match record with
      | some r => if ¬ (recordEq r newRecord = true) then ([r], [newRecord]) else ([], [])
      | none => ([], [newRecord])

/-- The diff loop of `sync_records` (src/cmd/domain.rs lines 126-181): fold
over instances and their addresses, accumulating deletions and creations in
push order. -/
def syncDiff (instances : List Instance) (records : List Record) (zone : String) (notInCidrs : List IpNetwork) : List Record × List Record :=
  instances.foldl
    (fun acc inst =>
      inst.ip_addresses.foldl
        (fun acc address =>
          let dc := processAddress records notInCidrs zone inst.name address
          (acc.1 ++ dc.1, acc.2 ++ dc.2))
        acc)
    ([], [])

/-- The `(instance name, address)` pairs visited by the diff loop, in order. -/
def pairsOf (instances : List Instance) : List (String × IpAddress) :=
  (instances.map (fun inst => inst.ip_addresses.map (fun a => (inst.name, a)))).flatten

/-- The diff expressed per visited pair. -/
def diffPairs (records : List Record) (notInCidrs : List IpNetwork) (zone : String) (pairs : List (String × IpAddress)) : List Record × List Record :=
  ((pairs.map (fun p => (processAddress records notInCidrs zone p.1 p.2).1)).flatten,
   (pairs.map (fun p => (processAddress records notInCidrs zone p.1 p.2).2)).flatten)

/-- The record set after a successful apply, as the idempotence property
defines it: the previous records minus the deleted ones (removal by the
program's record equality) plus the created ones. -/
def applyDiff (records toDelete toCreate : List Record) : List Record :=
  records.filter (fun r => ! toDelete.any (fun d => recordEq d r)) ++ toCreate

/-! ## The apply loop (src/cmd/domain.rs lines 186-212) -/

/-- A call issued against the provider's API. -/
inductive ApiCall where
  | deleteRecord (zone : String) (id : Int)
  | createRecord (zone : String) (record : Record)
  | refreshZone (zone : String)
  | postCredential
deriving DecidableEq

/-- The deletion loop: entries without an id are skipped, others issue a
delete call whose failure aborts the whole apply with a wrapped error. -/
def runDeleteLoop (execDelete : Int → Except String Unit) (zone : String) : List Record → List ApiCall → Except String (List ApiCall)
  | [], calls => Except.ok calls
  | record :: rest, calls =>
    match record.id with
    | none => runDeleteLoop execDelete zone rest calls
    | some id =>
      match execDelete id with
      | Except.error err =>
        Except.error (("could not delete record '") ++ toString id ++ ("', ") ++ err)
      | Except.ok _ => runDeleteLoop execDelete zone rest (calls ++ [ApiCall.deleteRecord zone id])

/-- The creation loop: each record issues a create call whose failure aborts
the whole apply with a wrapped error. -/
def runCreateLoop (execCreate : Record → Except String Record) (zone : String) : List Record → List ApiCall → Except String (List ApiCall)
  | [], calls => Except.ok calls
  | record :: rest, calls =>
    match execCreate record with
    | Except.error err => Except.error (("could not create record, ") ++ err)
    | Except.ok _ => runCreateLoop execCreate zone rest (calls ++ [ApiCall.createRecord zone record])

/-- The apply phase of `sync_records`: all deletions, then all creations,
returning the trace of issued calls. -/
def runSyncApply (execDelete : Int → Except String Unit) (execCreate : Record → Except String Record) (zone : String) (toDelete toCreate : List Record) : Except String (List ApiCall) :=
  match runDeleteLoop execDelete zone toDelete [] with
  | Except.error err => Except.error err
  | Except.ok calls => runCreateLoop execCreate zone toCreate calls

/-! ## Resource collectors (src/ovh/cloud/mod.rs lines 258-289 and
src/ovh/domain.rs lines 182-223)

The polymorphic `client.get` is modelled by an oracle giving, per endpoint
family, the decoded response or a transport error. -/

/-- The cloud endpoints used by the collectors. -/
structure CloudApi where
  getTenantIds : Except String (List String)
  getTenant : String → Except String Tenant
  getInstances : String → Except String (List Instance)
  getInstanceIds : String → Except String (List String)
  getInstance : String → String → Except String Instance

/-- The domain endpoints used by the collectors. -/
structure DomainApi where
  getZoneIds : Except String (List String)
  getZone : String → Except String Zone
  getRecordIds : String → Except String (List Int)
  getRecord : String → Int → Except String Record

/-- The per-id loop of `list_tenants`. -/
def listTenantsLoop (api : CloudApi) : List String → Except String (List Tenant)
  | [] => Except.ok []
  | id :: rest =>
    match api.getTenant id with
    | Except.error err =>
      Except.error (("could not retrieve tenant '") ++ id ++ ("', ") ++ err)
    | Except.ok tenant =>
      match listTenantsLoop api rest with
      | Except.error err => Except.error err
      | Except.ok tenants => Except.ok (tenant :: tenants)

/-- `list_tenants` from src/ovh/cloud/mod.rs lines 258-276: fetch the id
list, then fetch each tenant individually. -/
def list_tenants (api : CloudApi) : Except String (List Tenant) :=
  match api.getTenantIds with
  | Except.error err => Except.error (("could not retrieve tenants, ") ++ err)
  | Except.ok ids => listTenantsLoop api ids

/-- `list_instances` from src/ovh/cloud/mod.rs lines 278-289: a single GET
on `cloud/project/{tenant}/instance` returning the instances directly. -/
def list_instances (api : CloudApi) (tenant : String) : Except String (List Instance) :=
  match api.getInstances tenant with
  | Except.error err =>
    Except.error (("could not retrieve instance for tenant '") ++ tenant ++ ("', ") ++ err)
  | Except.ok instances => Except.ok instances

/-- Modelled from the spec: the two-phase variant of the instance collector
that §4.3 describes ("GET a path that returns a list of opaque identifiers"
then "GET each identifier's full object individually"); stated for
comparison with `list_instances`, which the source implements differently. -/
def listInstancesTwoPhase (api : CloudApi) (tenant : String) : Except String (List Instance) :=
  match api.getInstanceIds tenant with
  | Except.error err => Except.error err
  | Except.ok ids =>
    ids.foldr
      (fun id acc =>
        match api.getInstance tenant id with
        | Except.error err => Except.error err
        | Except.ok inst =>
          match acc with
          | Except.error err => Except.error err
          | Except.ok instances => Except.ok (inst :: instances))
      (Except.ok [])

/-- The per-id loop of `list_zones`. -/
def listZonesLoop (api : DomainApi) : List String → Except String (List Zone)
  | [] => Except.ok []
  | id :: rest =>
    match api.getZone id with
    | Except.error err =>
      Except.error (("could not retrieve zone '") ++ id ++ ("', ") ++ err)
    | Except.ok zone =>
      match listZonesLoop api rest with
      | Except.error err => Except.error err
      | Except.ok zones => Except.ok (zone :: zones)

/-- `list_zones` from src/ovh/domain.rs lines 182-199. -/
def list_zones (api : DomainApi) : Except String (List Zone) :=
  match api.getZoneIds with
  | Except.error err => Except.error (("could not retrieve zones, ") ++ err)
  | Except.ok ids => listZonesLoop api ids

/-- The per-id loop of `list_records`. -/
def listRecordsLoop (api : DomainApi) (zone : String) : List Int → Except String (List Record)
  | [] => Except.ok []
  | id :: rest =>
    match api.getRecord zone id with
    | Except.error err =>
      Except.error (("could not retrieve record '") ++ toString id ++ ("' in zone '") ++ zone ++ ("', ") ++ err)
    | Except.ok record =>
      match listRecordsLoop api zone rest with
      | Except.error err => Except.error err
      | Except.ok records => Except.ok (record :: records)

/-- `list_records` from src/ovh/domain.rs lines 201-223. -/
def list_records (api : DomainApi) (zone : String) : Except String (List Record) :=
  match api.getRecordIds zone with
  | Except.error err =>
    Except.error (("could not retrieve records in zone '") ++ zone ++ ("', ") ++ err)
  | Except.ok ids => listRecordsLoop api zone ids

/-! ## Configuration and the login bootstrap (src/cfg.rs, src/cmd/mod.rs) -/

/-- `Ovh` from src/cfg.rs lines 13-23. -/
structure OvhConfig where
  endpoint : String
  application_key : String
  application_secret : String
  consumer_key : Option String
deriving DecidableEq

/-- `TryFrom<Ovh> for ClientConfiguration` from src/ovh/mod.rs lines 40-53:
fails when the consumer key is absent. -/
def ClientConfiguration.tryFrom (config : OvhConfig) : Except String ClientConfiguration :=
  match config.consumer_key with
  | none => Except.error ("could not retrieve consumer key")
  | some key =>
    Except.ok
      { endpoint := config.endpoint
        application_key := config.application_key
        application_secret := config.application_secret
        consumer_key := key }

/-- `connect` from src/cmd/mod.rs lines 377-421: build the client from the
configuration (which requires a consumer key), then issue the unauthenticated
`POST auth/credential`. The result pairs the command outcome with the trace
of issued calls. -/
def connect (config : OvhConfig) (postCredential : Except String (String × String)) : Except String (String × String) × List ApiCall :=
  match ClientConfiguration.tryFrom config with
  | Except.error err =>
    (Except.error (("could not create ovh client configuration from the current configuration, ") ++ err), [])
  | Except.ok _ =>
    match postCredential with
    | Except.error err => (Except.error err, [ApiCall.postCredential])
    | Except.ok credentials => (Except.ok credentials, [ApiCall.postCredential])

/-! ## Concrete fixtures used by witnesses and counterexamples -/

/-- A concrete client configuration. -/
def cfgDemo : ClientConfiguration :=
  { endpoint := ("https://eu.api.ovh.com/1.0")
    application_key := ("ak")
    application_secret := ("sec")
    consumer_key := ("ck") }

/-! ## Claim C2: the request signature -/

/-- C2: for every secret, consumer key, method, full url, body and unix
timestamp, the signature is the version tag `$1$` followed by the hex SHA-1
digest of the `+`-separated concatenation of the six fields; and the
signature depends on nothing but those six inputs, so equal inputs always
yield equal signatures. -/
theorem C2_signature_spec (config : ClientConfiguration) (method path body : String) (timestamp : Int) (ep ak : String) :
    Client.hash config method path body timestamp =
      ("$1$") ++ hexStr (sha1 (utf8Bytes (config.application_secret ++ ("+") ++
        config.consumer_key ++ ("+") ++ method ++ ("+") ++ path ++ ("+") ++ body ++ ("+") ++
        toString timestamp))) ∧
    Client.hash { config with endpoint := ep, application_key := ak } method path body timestamp =
      Client.hash config method path body timestamp := by
  constructor
  · simp [Client.hash, Sha1State.new, Sha1State.input_str, Sha1State.result_str,
      utf8Bytes_append, List.append_assoc]
  · rfl

/-! ## Claim C3: delete status handling -/

/-- C3: the transport's delete succeeds exactly on a 2xx or 404 status, and
any other status yields an error carrying the request url, the numeric
status and the raw response body. -/
theorem C3_delete_status (config : ClientConfiguration) (path : String) (resp : HttpResponse) :
    (Client.delete_handle config path resp = Except.ok () ↔
      ((200 ≤ resp.status ∧ resp.status < 300) ∨ resp.status = 404)) ∧
    (¬ ((200 ≤ resp.status ∧ resp.status < 300) ∨ resp.status = 404) →
      Client.delete_handle config path resp =
        Except.error (("could not execute the request '") ++ (config.endpoint ++ ("/") ++ path) ++
          ("', got '") ++ toString resp.status ++ ("', ") ++ resp.body)) := by
  have hcond : (¬ (statusIsSuccess resp.status = true) ∧ resp.status ≠ 404) ↔
      ¬ ((200 ≤ resp.status ∧ resp.status < 300) ∨ resp.status = 404) := by
    simp only [statusIsSuccess, Bool.and_eq_true, decide_eq_true_eq]
    tauto
  by_cases h : (200 ≤ resp.status ∧ resp.status < 300) ∨ resp.status = 404
  · constructor
    · rw [Client.delete_handle, if_neg (by rw [hcond]; exact not_not_intro h)]
      simp [h]
    · intro hn
      exact absurd h hn
  · constructor
    · rw [Client.delete_handle, if_pos (hcond.mpr h)]
      simp [h]
    · intro _
      rw [Client.delete_handle, if_pos (hcond.mpr h)]

/-- Witness for C3 at concrete inputs: status 500 fails with the diagnostic
error, status 204 and 404 succeed. -/
theorem C3_delete_status_witness :
    Client.delete_handle cfgDemo ("domain/zone/z/record/7") ⟨500, ("boom")⟩ =
      Except.error (("could not execute the request '") ++ ("https://eu.api.ovh.com/1.0") ++ ("/") ++
        ("domain/zone/z/record/7") ++ ("', got '") ++ toString (500 : Nat) ++ ("', ") ++ ("boom")) ∧
    Client.delete_handle cfgDemo ("domain/zone/z/record/7") ⟨204, ("")⟩ = Except.ok () ∧
    Client.delete_handle cfgDemo ("domain/zone/z/record/7") ⟨404, ("gone")⟩ = Except.ok () :=
  ⟨(C3_delete_status cfgDemo ("domain/zone/z/record/7") ⟨500, ("boom")⟩).2 (by decide),
   (C3_delete_status cfgDemo ("domain/zone/z/record/7") ⟨204, ("")⟩).1.mpr (by decide),
   (C3_delete_status cfgDemo ("domain/zone/z/record/7") ⟨404, ("gone")⟩).1.mpr (by decide)⟩

/-! ## Claim C10: the login bootstrap needs a configured consumer key -/

/-- C10: when the configuration has no consumer key, `connect` fails with the
configuration error wrapping `could not retrieve consumer key` and issues no
request at all. -/
theorem C10_connect_requires_consumer_key (config : OvhConfig) (postCredential : Except String (String × String)) :
    config.consumer_key = none →
    connect config postCredential =
      (Except.error (("could not create ovh client configuration from the current configuration, ") ++
        ("could not retrieve consumer key")), []) := by
  intro h
  unfold connect ClientConfiguration.tryFrom
  rw [h]

/-- Witness for C10: a concrete configuration without consumer key. -/
theorem C10_connect_witness :
    connect
      { endpoint := ("https://eu.api.ovh.com/1.0"), application_key := ("ak"),
        application_secret := ("sec"), consumer_key := none }
      (Except.ok (("url"), ("key"))) =
      (Except.error (("could not create ovh client configuration from the current configuration, ") ++
        ("could not retrieve consumer key")), []) :=
  C10_connect_requires_consumer_key _ _ rfl

/-! ## Claim C4: content-type on POST and PUT -/

/-- Counterexample to C4 as stated: a PUT whose body serializes to the JSON
empty string is sent with an empty wire body and nevertheless carries a
`Content-Type: application/json` header, because the put builder adds one
unconditionally. -/
theorem C4_counterexample :
    (Client.put_request cfgDemo ("domain/zone/z/refresh") ("\"\"") 0).body = ("") ∧
    hasHeader (Client.put_request cfgDemo ("domain/zone/z/refresh") ("\"\"") 0) ("Content-Type") = true := by
  constructor
  · rfl
  · rfl

/-- C4 amended: for POST the content-type header is present exactly when the
wire body is non-empty, and a body serializing to the JSON empty string is
sent as an empty wire body; for PUT the empty-body replacement is the same
but the content-type header is always present. `serialized` is an output of
`serde_json::to_string` and hence never the empty string. -/
theorem C4_content_type (config : ClientConfiguration) (path serialized : String) (timestamp : Int) :
    serialized ≠ ("") →
    (hasHeader (Client.post_request config path serialized timestamp) ("Content-Type") = true ↔
      (Client.post_request config path serialized timestamp).body ≠ ("")) ∧
    hasHeader (Client.put_request config path serialized timestamp) ("Content-Type") = true ∧
    (serialized = ("\"\"") →
      (Client.post_request config path serialized timestamp).body = ("") ∧
      (Client.put_request config path serialized timestamp).body = ("")) := by
  intro hne
  by_cases hs : serialized = ("\"\"")
  · refine ⟨?_, ?_, fun _ => ⟨?_, ?_⟩⟩
    · simp [Client.post_request, hasHeader, hs]
    · simp [Client.put_request, hasHeader, hs]
    · simp [Client.post_request, hs]
    · simp [Client.put_request, hs]
  · have hx : ("\"\"") ≠ serialized := fun h => hs h.symm
    refine ⟨?_, ?_, fun h => absurd h hs⟩
    · simp [Client.post_request, hasHeader, hx, hne]
    · simp [Client.put_request, hasHeader, hx]

/-- Witness for C4 amended at a concrete non-empty serialized body. -/
theorem C4_content_type_witness :
    (hasHeader (Client.post_request cfgDemo ("domain/zone/z/record") ("\"x\"") 0) ("Content-Type") = true ↔
      (Client.post_request cfgDemo ("domain/zone/z/record") ("\"x\"") 0).body ≠ ("")) ∧
    hasHeader (Client.put_request cfgDemo ("domain/zone/z/record") ("\"x\"") 0) ("Content-Type") = true ∧
    (("\"x\"") = ("\"\"") →
      (Client.post_request cfgDemo ("domain/zone/z/record") ("\"x\"") 0).body = ("") ∧
      (Client.put_request cfgDemo ("domain/zone/z/record") ("\"x\"") 0).body = ("")) :=
  C4_content_type cfgDemo ("domain/zone/z/record") ("\"x\"") 0 (by decide)

/-! ## Claim C9: the apply loop -/

/-- The delete loop appends, in input order, one delete call per entry that
has an id, skipping entries without one. -/
theorem runDeleteLoop_ok (execDelete : Int → Except String Unit) (zone : String) :
    ∀ (toDelete : List Record) (calls : List ApiCall),
      (∀ id, (∃ r ∈ toDelete, r.id = some id) → execDelete id = Except.ok ()) →
      runDeleteLoop execDelete zone toDelete calls =
        Except.ok (calls ++ toDelete.filterMap (fun r => r.id.map (fun id => ApiCall.deleteRecord zone id))) := by
  intro toDelete
  induction toDelete with
  | nil => intro calls _; simp [runDeleteLoop]
  | cons r rest ih =>
    intro calls h
    cases hid : r.id with
    | none =>
      rw [runDeleteLoop, hid]
      dsimp only
      rw [ih calls (fun id hex => h id ⟨hex.choose, ⟨List.mem_cons_of_mem r hex.choose_spec.1, hex.choose_spec.2⟩⟩)]
      simp [hid]
    | some id =>
      rw [runDeleteLoop, hid]
      dsimp only
      rw [h id ⟨r, ⟨List.mem_cons_self r rest, hid⟩⟩]
      dsimp only
      rw [ih (calls ++ [ApiCall.deleteRecord zone id])
        (fun i hex => h i ⟨hex.choose, ⟨List.mem_cons_of_mem r hex.choose_spec.1, hex.choose_spec.2⟩⟩)]
      simp [hid]

/-- The create loop appends one create call per record, in input order. -/
theorem runCreateLoop_ok (execCreate : Record → Except String Record) (zone : String) :
    ∀ (toCreate : List Record) (calls : List ApiCall),
      (∀ r ∈ toCreate, ∃ created, execCreate r = Except.ok created) →
      runCreateLoop execCreate zone toCreate calls =
        Except.ok (calls ++ toCreate.map (fun r => ApiCall.createRecord zone r)) := by
  intro toCreate
  induction toCreate with
  | nil => intro calls _; simp [runCreateLoop]
  | cons r rest ih =>
    intro calls h
    obtain ⟨created, hc⟩ := h r (List.mem_cons_self r rest)
    rw [runCreateLoop, hc]
    dsimp only
    rw [ih (calls ++ [ApiCall.createRecord zone r]) (fun x hx => h x (List.mem_cons_of_mem r hx))]
    simp

/-- C9: when the transport succeeds on every issued call, the apply phase
issues all deletions strictly before all creations, each in input order, and
every `toDelete` entry without an id is silently skipped: it produces no
call and can produce no error. -/
theorem C9_apply_order (execDelete : Int → Except String Unit) (execCreate : Record → Except String Record) (zone : String) (toDelete toCreate : List Record) :
    (∀ id, (∃ r ∈ toDelete, r.id = some id) → execDelete id = Except.ok ()) →
    (∀ r ∈ toCreate, ∃ created, execCreate r = Except.ok created) →
    runSyncApply execDelete execCreate zone toDelete toCreate =
      Except.ok (toDelete.filterMap (fun r => r.id.map (fun id => ApiCall.deleteRecord zone id)) ++
        toCreate.map (fun r => ApiCall.createRecord zone r)) := by
  intro hd hc
  rw [runSyncApply, runDeleteLoop_ok execDelete zone toDelete [] hd]
  dsimp only
  rw [runCreateLoop_ok execCreate zone toCreate _ hc]
  simp

/-- Witness for C9: one id-less entry, one entry with id 5, one creation; the
trace contains the single delete call followed by the single create call even
though the transport is never consulted for the id-less entry. -/
theorem C9_apply_order_witness :
    runSyncApply (fun _ => Except.ok ()) (fun r => Except.ok r) ("example.com")
      [{ id := none, field_type := ("A"), sub_domain := ("a"), ttl := none,
         zone := ("example.com"), target := ("192.0.2.1") },
       { id := some 5, field_type := ("A"), sub_domain := ("b"), ttl := none,
         zone := ("example.com"), target := ("192.0.2.2") }]
      [{ id := none, field_type := ("A"), sub_domain := ("c"), ttl := none,
         zone := ("example.com"), target := ("192.0.2.3") }] =
      Except.ok [ApiCall.deleteRecord ("example.com") 5,
        ApiCall.createRecord ("example.com")
          { id := none, field_type := ("A"), sub_domain := ("c"), ttl := none,
            zone := ("example.com"), target := ("192.0.2.3") }] :=
  C9_apply_order _ _ _ _ _
    (fun _ _ => rfl)
    (fun r _ => ⟨r, rfl⟩)

/-! ## Claim C8: the collectors' fetch pattern -/

/-- A concrete instance fixture. -/
def instDemoA : Instance :=
  { id := ("i-a"), name := ("web-01"),
    ip_addresses := [], flavor_id := ("f"), image_id := ("img"),
    region := ("GRA"), status := ("ACTIVE"), plan_code := ("p") }

/-- A second concrete instance fixture. -/
def instDemoB : Instance :=
  { id := ("i-b"), name := ("web-02"),
    ip_addresses := [], flavor_id := ("f"), image_id := ("img"),
    region := ("GRA"), status := ("ACTIVE"), plan_code := ("p") }

/-- A cloud oracle whose only answering endpoint is the bulk instance
listing; every identifier-style endpoint fails. -/
def cloudApiDemo : CloudApi :=
  { getTenantIds := Except.error ("unused")
    getTenant := fun _ => Except.error ("unused")
    getInstances := fun _ => Except.ok [instDemoA, instDemoB]
    getInstanceIds := fun _ => Except.error ("no per-id instance endpoint")
    getInstance := fun _ _ => Except.error ("no per-id instance endpoint") }

/-- Counterexample to C8 as stated: the instance collector returns two full
objects although no identifier listing and no per-identifier fetch can
succeed on this oracle — it is a single-request collector, and it differs
from the two-phase collector that the claim describes. -/
theorem C8_counterexample :
    list_instances cloudApiDemo ("tenant") = Except.ok [instDemoA, instDemoB] ∧
    listInstancesTwoPhase cloudApiDemo ("tenant") = Except.error ("no per-id instance endpoint") ∧
    listInstancesTwoPhase cloudApiDemo ("tenant") ≠ list_instances cloudApiDemo ("tenant") := by
  refine ⟨rfl, rfl, ?_⟩
  intro h
  simp [listInstancesTwoPhase, list_instances, cloudApiDemo] at h

/-- C8 amended: the tenant, zone and record collectors perform the two-phase
fetch — the id listing followed by one fetch per id — and return the objects
in the order of the id listing; the instance collector instead issues the
single bulk GET and returns its objects directly, in response order. -/
theorem C8_collectors (capi : CloudApi) (dapi : DomainApi) (tenant zone : String)
    (tids zids : List String) (rids : List Int) (instances : List Instance)
    (ft : String → Tenant) (fz : String → Zone) (fr : Int → Record) :
    (capi.getTenantIds = Except.ok tids → (∀ id ∈ tids, capi.getTenant id = Except.ok (ft id)) →
      list_tenants capi = Except.ok (tids.map ft)) ∧
    (dapi.getZoneIds = Except.ok zids → (∀ id ∈ zids, dapi.getZone id = Except.ok (fz id)) →
      list_zones dapi = Except.ok (zids.map fz)) ∧
    (dapi.getRecordIds zone = Except.ok rids → (∀ id ∈ rids, dapi.getRecord zone id = Except.ok (fr id)) →
      list_records dapi zone = Except.ok (rids.map fr)) ∧
    (capi.getInstances tenant = Except.ok instances →
      list_instances capi tenant = Except.ok instances) := by
  refine ⟨?_, ?_, ?_, ?_⟩
  · intro hids hea
    rw [list_tenants, hids]
    dsimp only
    clear hids
    induction tids with
    | nil => simp [listTenantsLoop]
    | cons id rest ih =>
      rw [listTenantsLoop, hea id (List.mem_cons_self id rest)]
      dsimp only
      rw [ih (fun i hi => hea i (List.mem_cons_of_mem id hi))]
      simp
  · intro hids hea
    rw [list_zones, hids]
    dsimp only
    clear hids
    induction zids with
    | nil => simp [listZonesLoop]
    | cons id rest ih =>
      rw [listZonesLoop, hea id (List.mem_cons_self id rest)]
      dsimp only
      rw [ih (fun i hi => hea i (List.mem_cons_of_mem id hi))]
      simp
  · intro hids hea
    rw [list_records, hids]
    dsimp only
    clear hids
    induction rids with
    | nil => simp [listRecordsLoop]
    | cons id rest ih =>
      rw [listRecordsLoop, hea id (List.mem_cons_self id rest)]
      dsimp only
      rw [ih (fun i hi => hea i (List.mem_cons_of_mem id hi))]
      simp
  · intro hok
    rw [list_instances, hok]

/-- A cloud oracle answering every endpoint, used by the C8 witness. -/
def cloudApiDemo2 : CloudApi :=
  { getTenantIds := Except.ok [("t1"), ("t2")]
    getTenant := fun id =>
      Except.ok { project_id := id, description := ("d"), plan_code := ("p"),
                  unleash := false, status := ("ok"), access := ("full") }
    getInstances := fun _ => Except.ok [instDemoA, instDemoB]
    getInstanceIds := fun _ => Except.error ("no per-id instance endpoint")
    getInstance := fun _ _ => Except.error ("no per-id instance endpoint") }

/-- A domain oracle answering every endpoint, used by the C8 witness. -/
def domainApiDemo : DomainApi :=
  { getZoneIds := Except.ok [("example.com")]
    getZone := fun n =>
      Except.ok { name := n, dnssec_supported := false, has_dns_anycast := false, name_servers := [] }
    getRecordIds := fun _ => Except.ok [3, 1, 2]
    getRecord := fun z id =>
      Except.ok { id := some id, field_type := ("A"), sub_domain := ("s"), ttl := none,
                  zone := z, target := ("192.0.2.1") } }

/-- Witness for C8 amended on concrete oracles: results follow the id-listing
order, including the non-sorted record ids `[3, 1, 2]`. -/
theorem C8_collectors_witness :
    list_tenants cloudApiDemo2 =
      Except.ok ([("t1"), ("t2")].map (fun id =>
        { project_id := id, description := ("d"), plan_code := ("p"),
          unleash := false, status := ("ok"), access := ("full") })) ∧
    list_zones domainApiDemo =
      Except.ok ([("example.com")].map (fun n =>
        { name := n, dnssec_supported := false, has_dns_anycast := false, name_servers := [] })) ∧
    list_records domainApiDemo ("example.com") =
      Except.ok ([(3 : Int), 1, 2].map (fun id =>
        { id := some id, field_type := ("A"), sub_domain := ("s"), ttl := none,
          zone := ("example.com"), target := ("192.0.2.1") })) ∧
    list_instances cloudApiDemo2 ("t1") = Except.ok [instDemoA, instDemoB] := by
  have h := C8_collectors cloudApiDemo2 domainApiDemo ("t1") ("example.com")
    [("t1"), ("t2")] [("example.com")] [3, 1, 2] [instDemoA, instDemoB]
    (fun id => { project_id := id, description := ("d"), plan_code := ("p"),
                 unleash := false, status := ("ok"), access := ("full") })
    (fun n => { name := n, dnssec_supported := false, has_dns_anycast := false, name_servers := [] })
    (fun id => { id := some id, field_type := ("A"), sub_domain := ("s"), ttl := none,
                 zone := ("example.com"), target := ("192.0.2.1") })
  exact ⟨h.1 rfl (fun id _ => rfl), h.2.1 rfl (fun id _ => rfl),
    h.2.2.1 rfl (fun id _ => rfl), h.2.2.2 rfl⟩

/-! ## Structural lemmas about the diff loop -/

theorem addrFold (records : List Record) (notInCidrs : List IpNetwork) (zone name : String) (addresses : List IpAddress) (acc : List Record × List Record) :
    addresses.foldl
      (fun acc address =>
        let dc := processAddress records notInCidrs zone name address
        (acc.1 ++ dc.1, acc.2 ++ dc.2)) acc =
    (acc.1 ++ (addresses.map (fun a => (processAddress records notInCidrs zone name a).1)).flatten,
     acc.2 ++ (addresses.map (fun a => (processAddress records notInCidrs zone name a).2)).flatten) := by
  induction addresses generalizing acc with
  | nil => simp
  | cons a rest ih => simp [List.foldl_cons, ih, List.append_assoc]

theorem instFold (records : List Record) (notInCidrs : List IpNetwork) (zone : String) (instances : List Instance) (acc : List Record × List Record) :
    instances.foldl
      (fun acc inst =>
        inst.ip_addresses.foldl
          (fun acc address =>
            let dc := processAddress records notInCidrs zone inst.name address
            (acc.1 ++ dc.1, acc.2 ++ dc.2)) acc) acc =
    (acc.1 ++ (diffPairs records notInCidrs zone (pairsOf instances)).1,
     acc.2 ++ (diffPairs records notInCidrs zone (pairsOf instances)).2) := by
  induction instances generalizing acc with
  | nil => simp [diffPairs, pairsOf]
  | cons inst rest ih =>
    rw [List.foldl_cons]
    dsimp only
    rw [addrFold, ih]
    simp [diffPairs, pairsOf, List.map_map, Function.comp_def, List.append_assoc]

theorem syncDiff_eq_diffPairs (instances : List Instance) (records : List Record) (zone : String) (notInCidrs : List IpNetwork) :
    syncDiff instances records zone notInCidrs = diffPairs records notInCidrs zone (pairsOf instances) := by
  rw [syncDiff, instFold]
  simp

theorem mem_pairsOf {instances : List Instance} {inst : Instance} {address : IpAddress} (hi : inst ∈ instances) (ha : address ∈ inst.ip_addresses) :
    (inst.name, address) ∈ pairsOf instances := by
  simp only [pairsOf, List.mem_flatten, List.mem_map]
  exact ⟨inst.ip_addresses.map (fun a => (inst.name, a)), ⟨inst, hi, rfl⟩,
    List.mem_map.mpr ⟨address, ha, rfl⟩⟩

theorem mem_syncDiff_deletes {records : List Record} {notInCidrs : List IpNetwork} {zone : String} {instances : List Instance} {inst : Instance} {address : IpAddress} {r : Record}
    (hi : inst ∈ instances) (ha : address ∈ inst.ip_addresses)
    (hr : r ∈ (processAddress records notInCidrs zone inst.name address).1) :
    r ∈ (syncDiff instances records zone notInCidrs).1 := by
  rw [syncDiff_eq_diffPairs]
  simp only [diffPairs, List.mem_flatten, List.mem_map]
  exact ⟨(processAddress records notInCidrs zone inst.name address).1,
    ⟨(inst.name, address), mem_pairsOf hi ha, rfl⟩, hr⟩

/-- Every record the per-address step marks for deletion is exactly the
existing record found for that address value. -/
theorem processAddress_deletes {records : List Record} {notInCidrs : List IpNetwork} {zone name : String} {address : IpAddress} {d : Record}
    (hd : d ∈ (processAddress records notInCidrs zone name address).1) :
    domainContains records address.ip = some d := by
  simp only [processAddress] at hd
  split at hd
  · cases hfound : domainContains records address.ip with
    | none => rw [hfound] at hd; simp at hd
    | some r => rw [hfound] at hd; simp at hd; exact congrArg some hd.symm
  · split at hd
    · cases hfound : domainContains records address.ip with
      | none => rw [hfound] at hd; simp at hd
      | some r => rw [hfound] at hd; simp at hd; exact congrArg some hd.symm
    · split at hd
      · simp at hd
      · split at hd
        · next r heq =>
          split at hd
          · simp at hd
            exact heq.trans (congrArg some hd.symm)
          · simp at hd
        · simp at hd

/-- Every record the per-address step creates is the desired record of that
address: no id, no ttl, the field type of the version, the trimmed
subdomain, the zone and the textual address as target. -/
theorem processAddress_creates {records : List Record} {notInCidrs : List IpNetwork} {zone name : String} {address : IpAddress} {c : Record}
    (hc : c ∈ (processAddress records notInCidrs zone name address).2) :
    ∃ ft, fieldTypeOf address.version = some ft ∧
      c = { id := none, field_type := ft, sub_domain := trimEndMatches name ((".") ++ zone),
            ttl := none, zone := zone, target := ipToString address.ip } := by
  simp only [processAddress] at hc
  split at hc
  · simp at hc
  · split at hc
    · simp at hc
    · split at hc
      · simp at hc
      · next ft hft =>
        split at hc
        · split at hc
          · simp at hc
            exact ⟨ft, hft, hc⟩
          · simp at hc
        · simp at hc
          exact ⟨ft, hft, hc⟩

/-! ## Claim C5: non-public and excluded addresses -/

/-- C5: for an address that is not public, or whose value falls inside a
cidr of the exclusion list, the per-address step creates nothing, its delete
contribution is exactly the existing record matching the address value, and
any such matching record ends up in the full diff's `toDelete`. -/
theorem C5_exclusion (records : List Record) (notInCidrs : List IpNetwork) (zone : String) (instances : List Instance) (inst : Instance) (address : IpAddress) :
    inst ∈ instances → address ∈ inst.ip_addresses →
    (address.kind ≠ ("public") ∨ (netContains notInCidrs address.ip).isSome = true) →
    (processAddress records notInCidrs zone inst.name address).2 = [] ∧
    (processAddress records notInCidrs zone inst.name address).1 = (domainContains records address.ip).toList ∧
    (∀ r, domainContains records address.ip = some r → r ∈ (syncDiff instances records zone notInCidrs).1) := by
  intro hi ha hex
  have hstep : processAddress records notInCidrs zone inst.name address =
      ((domainContains records address.ip).toList, []) := by
    by_cases hk : inst.name = inst.name ∧ address.kind ≠ ("public")
    · simp only [processAddress]
      rw [if_pos hk.2]
    · have hk2 : ¬ address.kind ≠ ("public") := fun h => hk ⟨rfl, h⟩
      rcases hex with h | h
      · exact absurd h hk2
      · simp only [processAddress]
        rw [if_neg hk2, if_pos h]
  refine ⟨by rw [hstep], by rw [hstep], ?_⟩
  intro r hr
  apply mem_syncDiff_deletes hi ha
  rw [hstep, hr]
  simp

/-- A concrete exclusion cidr `10.0.0.0/8`. -/
def cidr10 : IpNetwork := { addr := IpAddr.v4 10 0 0 0, prefix_len := 8 }

/-- A public address inside the excluded range. -/
def addrW5 : IpAddress :=
  { ip := IpAddr.v4 10 0 0 1, kind := ("public"), version := 4,
    network_id := ("n"), gateway_ip := none }

def instW5 : Instance :=
  { id := ("i-w5"), name := ("host-w"), ip_addresses := [addrW5], flavor_id := ("f"),
    image_id := ("g"), region := ("r"), status := ("s"), plan_code := ("p") }

/-- The record previously created for the now-excluded address. -/
def recW5 : Record :=
  { id := some 11, field_type := ("A"), sub_domain := ("host-w"), ttl := none,
    zone := ("example.com"), target := ("10.0.0.1") }

/-- Witness for C5: a public address inside `10.0.0.0/8` produces no
creation, its matching record is marked stale, and that record reaches the
full diff's `toDelete`. -/
theorem C5_exclusion_witness :
    (processAddress [recW5] [cidr10] ("example.com") instW5.name addrW5).2 = [] ∧
    (processAddress [recW5] [cidr10] ("example.com") instW5.name addrW5).1 =
      (domainContains [recW5] addrW5.ip).toList ∧
    (∀ r, domainContains [recW5] addrW5.ip = some r →
      r ∈ (syncDiff [instW5] [recW5] ("example.com") [cidr10]).1) :=
  C5_exclusion [recW5] [cidr10] ("example.com") [instW5] instW5 addrW5
    (by decide) (by decide) (by decide)

/-! ## Claim C6: version filtering -/

/-- An address with version 5 on a non-public interface. -/
def addrV5 : IpAddress :=
  { ip := IpAddr.v4 10 0 0 1, kind := ("private"), version := 5,
    network_id := ("n"), gateway_ip := none }

def instV5 : Instance :=
  { id := ("i5"), name := ("host-a"), ip_addresses := [addrV5], flavor_id := ("f"),
    image_id := ("g"), region := ("r"), status := ("s"), plan_code := ("p") }

def recV5 : Record :=
  { id := some 1, field_type := ("A"), sub_domain := ("host-a"), ttl := none,
    zone := ("example.com"), target := ("10.0.0.1") }

/-- Counterexample to C6 as stated: a non-public address of version 5 whose
value matches an existing record does put that record into `toDelete` — the
kind check runs before the version check, so a bad-version address is not
always invisible to the change sets. -/
theorem C6_counterexample :
    addrV5.version ≠ 4 ∧ addrV5.version ≠ 6 ∧ recV5.target = ipToString addrV5.ip ∧
    syncDiff [instV5] [recV5] ("example.com") [] = ([recV5], []) := by decide

/-- C6 amended: an address whose version is neither 4 nor 6 never
contributes a creation; when it is public and not excluded it is skipped
entirely (no deletion either, no error); but when it is not public, or when
it is public and its value falls inside an excluded cidr, its matching
record is still marked for deletion — the kind and exclusion checks run
before the version check. -/
theorem C6_version_filtering (records : List Record) (notInCidrs : List IpNetwork) (zone name : String) (address : IpAddress) :
    address.version ≠ 4 → address.version ≠ 6 →
    (processAddress records notInCidrs zone name address).2 = [] ∧
    (address.kind = ("public") → netContains notInCidrs address.ip = none →
      processAddress records notInCidrs zone name address = ([], [])) ∧
    (address.kind ≠ ("public") →
      (processAddress records notInCidrs zone name address).1 = (domainContains records address.ip).toList) ∧
    ((netContains notInCidrs address.ip).isSome = true →
      (processAddress records notInCidrs zone name address).1 = (domainContains records address.ip).toList) := by
  intro h4 h6
  have hft : fieldTypeOf address.version = none := by
    simp [fieldTypeOf, h4, h6]
  refine ⟨?_, ?_, ?_, ?_⟩
  · simp only [processAddress]
    split
    · rfl
    · split
      · rfl
      · rw [hft]
  · intro hk hn
    simp only [processAddress]
    rw [if_neg (fun h => h hk), if_neg (by rw [hn]; simp), hft]
  · intro hk
    simp only [processAddress]
    rw [if_pos hk]
  · intro hc
    by_cases hk : address.kind ≠ ("public")
    · simp only [processAddress]
      rw [if_pos hk]
    · simp only [processAddress]
      rw [if_neg hk, if_pos hc]

/-- A version-5 address on a public, non-excluded interface. -/
def addrV5pub : IpAddress :=
  { ip := IpAddr.v4 192 0 2 9, kind := ("public"), version := 5,
    network_id := ("n"), gateway_ip := none }

/-- A version-5 address on a public interface inside the excluded range
`10.0.0.0/8`. -/
def addrV5exc : IpAddress :=
  { ip := IpAddr.v4 10 0 0 1, kind := ("public"), version := 5,
    network_id := ("n"), gateway_ip := none }

/-- Witness for C6 amended at two concrete version-5 public addresses: one
outside any excluded cidr (skipped entirely) and one inside `10.0.0.0/8`
(its matching record is marked for deletion). -/
theorem C6_version_filtering_witness :
    ((processAddress [recV5] [] ("example.com") ("host-a") addrV5pub).2 = [] ∧
     (addrV5pub.kind = ("public") → netContains [] addrV5pub.ip = none →
       processAddress [recV5] [] ("example.com") ("host-a") addrV5pub = ([], [])) ∧
     (addrV5pub.kind ≠ ("public") →
       (processAddress [recV5] [] ("example.com") ("host-a") addrV5pub).1 =
         (domainContains [recV5] addrV5pub.ip).toList) ∧
     ((netContains [] addrV5pub.ip).isSome = true →
       (processAddress [recV5] [] ("example.com") ("host-a") addrV5pub).1 =
         (domainContains [recV5] addrV5pub.ip).toList)) ∧
    ((processAddress [recV5] [cidr10] ("example.com") ("host-a") addrV5exc).2 = [] ∧
     (addrV5exc.kind = ("public") → netContains [cidr10] addrV5exc.ip = none →
       processAddress [recV5] [cidr10] ("example.com") ("host-a") addrV5exc = ([], [])) ∧
     (addrV5exc.kind ≠ ("public") →
       (processAddress [recV5] [cidr10] ("example.com") ("host-a") addrV5exc).1 =
         (domainContains [recV5] addrV5exc.ip).toList) ∧
     ((netContains [cidr10] addrV5exc.ip).isSome = true →
       (processAddress [recV5] [cidr10] ("example.com") ("host-a") addrV5exc).1 =
         (domainContains [recV5] addrV5exc.ip).toList)) :=
  ⟨C6_version_filtering [recV5] [] ("example.com") ("host-a") addrV5pub (by decide) (by decide),
   C6_version_filtering [recV5] [cidr10] ("example.com") ("host-a") addrV5exc (by decide) (by decide)⟩

/-! ## Claim C7: the subdomain computation -/

theorem flatten_replicate_succ (k : Nat) (pat : List Char) :
    (List.replicate (k + 1) pat).flatten = (List.replicate k pat).flatten ++ pat := by
  induction k with
  | zero => simp
  | succ n ih =>
    rw [List.replicate_succ, List.flatten_cons, ih]
    have hcomm : pat ++ (List.replicate n pat).flatten = (List.replicate n pat).flatten ++ pat := by
      rw [← List.flatten_cons, ← List.replicate_succ, ih]
    rw [← List.append_assoc, hcomm]

theorem trimEndAux_not_suffix (pat : List Char) (hp : pat ≠ []) :
    ∀ (fuel : Nat) (l : List Char), l.length ≤ fuel → ¬ pat <:+ trimEndAux pat fuel l := by
  intro fuel
  induction fuel with
  | zero =>
    intro l hl
    have hnil : l = [] := List.length_eq_zero.mp (Nat.le_zero.mp hl)
    subst hnil
    simp only [trimEndAux]
    intro hsuf
    exact hp (List.suffix_nil.mp hsuf)
  | succ n ih =>
    intro l hl
    simp only [trimEndAux]
    by_cases h : pat ≠ [] ∧ pat <:+ l
    · rw [if_pos h]
      apply ih
      rw [List.length_take]
      have h1 := h.2.length_le
      have h2 := List.length_pos.mpr h.1
      omega
    · rw [if_neg h]
      intro hsuf
      exact h ⟨hp, hsuf⟩

theorem trimEndAux_decompose (pat : List Char) :
    ∀ (fuel : Nat) (l : List Char), l.length ≤ fuel →
      ∃ k, l = trimEndAux pat fuel l ++ (List.replicate k pat).flatten := by
  intro fuel
  induction fuel with
  | zero =>
    intro l _
    exact ⟨0, by simp [trimEndAux]⟩
  | succ n ih =>
    intro l hl
    simp only [trimEndAux]
    by_cases h : pat ≠ [] ∧ pat <:+ l
    · rw [if_pos h]
      obtain ⟨t, ht⟩ := h.2
      have htake : l.take (l.length - pat.length) = t := by
        rw [← ht]
        have hlen : (t ++ pat).length - pat.length = t.length := by
          simp
        rw [hlen]
        exact List.take_left t pat
      have hbound : (l.take (l.length - pat.length)).length ≤ n := by
        rw [List.length_take]
        have h1 := h.2.length_le
        have h2 := List.length_pos.mpr h.1
        omega
      obtain ⟨k, hk⟩ := ih (l.take (l.length - pat.length)) hbound
      refine ⟨k + 1, ?_⟩
      rw [flatten_replicate_succ, ← List.append_assoc, ← hk, htake, ht]
    · rw [if_neg h]
      exact ⟨0, by simp⟩

theorem trimEndList_not_suffix (l pat : List Char) (hp : pat ≠ []) :
    ¬ pat <:+ trimEndList l pat :=
  trimEndAux_not_suffix pat hp l.length l (Nat.le_refl _)

theorem trimEndList_decompose (l pat : List Char) :
    ∃ k, l = trimEndList l pat ++ (List.replicate k pat).flatten :=
  trimEndAux_decompose pat l.length l (Nat.le_refl _)

/-- The subdomain computation as the claim words it: the instance name with
a trailing `"." + zone` suffix stripped once if present, unchanged
otherwise. -/
def stripSuffixOnce (name zone : String) : String :=
  if ((".") ++ zone).data <:+ name.data then
    ⟨name.data.take (name.data.length - ((".") ++ zone).data.length)⟩
  else name

def addrC7 : IpAddress :=
  { ip := IpAddr.v4 198 51 100 7, kind := ("public"), version := 4,
    network_id := ("n"), gateway_ip := none }

def instC7 : Instance :=
  { id := ("i7"), name := ("a.z.z"), ip_addresses := [addrC7], flavor_id := ("f"),
    image_id := ("g"), region := ("r"), status := ("s"), plan_code := ("p") }

/-- Counterexample to C7 as stated: for the instance named `a.z.z` in zone
`z` the reconciler creates the subdomain `a` — the trailing `.z` suffix is
stripped repeatedly — while stripping the suffix once, as the claim says,
would give `a.z`. -/
theorem C7_counterexample :
    (syncDiff [instC7] [] ("z") []).2 =
      [{ id := none, field_type := ("A"), sub_domain := ("a"), ttl := none,
         zone := ("z"), target := ("198.51.100.7") }] ∧
    stripSuffixOnce ("a.z.z") ("z") = ("a.z") ∧
    (("a") : String) ≠ ("a.z") := by decide

/-- C7 amended: every record the reconciler creates has as subdomain the
instance name with all trailing `"." + zone` suffixes repeatedly stripped:
the name decomposes as the subdomain followed by some number of copies of
the suffix, and the subdomain itself no longer ends with the suffix. -/
theorem C7_subdomain_trim (records : List Record) (notInCidrs : List IpNetwork) (zone name : String) (address : IpAddress) (c : Record) :
    c ∈ (processAddress records notInCidrs zone name address).2 →
    c.sub_domain = trimEndMatches name ((".") ++ zone) ∧
    ¬ ((".") ++ zone).data <:+ c.sub_domain.data ∧
    ∃ k, name.data = c.sub_domain.data ++ (List.replicate k ((".") ++ zone).data).flatten := by
  intro hc
  obtain ⟨ft, hft, hcr⟩ := processAddress_creates hc
  have hsub : c.sub_domain = trimEndMatches name ((".") ++ zone) := by rw [hcr]
  have hpat : ((".") ++ zone).data ≠ [] := by
    rw [String.data_append]
    simp [String.data]
  refine ⟨hsub, ?_, ?_⟩
  · rw [hsub]
    exact trimEndList_not_suffix name.data ((".") ++ zone).data hpat
  · rw [hsub]
    exact trimEndList_decompose name.data ((".") ++ zone).data

def addrW7 : IpAddress :=
  { ip := IpAddr.v4 192 0 2 7, kind := ("public"), version := 4,
    network_id := ("n"), gateway_ip := none }

def recW7 : Record :=
  { id := none, field_type := ("A"), sub_domain := ("web-01"), ttl := none,
    zone := ("example.com"), target := ("192.0.2.7") }

/-- Witness for C7 amended: the instance `web-01.example.com` in zone
`example.com` yields the subdomain `web-01`. -/
theorem C7_subdomain_trim_witness :
    recW7.sub_domain = trimEndMatches ("web-01.example.com") ((".") ++ ("example.com")) ∧
    ¬ ((".") ++ ("example.com")).data <:+ recW7.sub_domain.data ∧
    ∃ k, ("web-01.example.com").data =
      recW7.sub_domain.data ++ (List.replicate k ((".") ++ ("example.com")).data).flatten :=
  C7_subdomain_trim [] [] ("example.com") ("web-01.example.com") addrW7 recW7 (by decide)

/-! ## Claim C1: idempotence of the reconciliation diff -/

theorem recordEq_refl (r : Record) : recordEq r r = true := by
  simp [recordEq]

theorem recordEq_target {a b : Record} (h : recordEq a b = true) : a.target = b.target := by
  simp only [recordEq, Bool.and_eq_true, beq_iff_eq] at h
  exact h.2

theorem domainContains_some {records : List Record} {ip : IpAddr} {r : Record}
    (h : domainContains records ip = some r) : r ∈ records ∧ r.target = ipToString ip :=
  ⟨List.mem_of_find?_eq_some h, by simpa using List.find?_some h⟩

theorem domainContains_none {records : List Record} {ip : IpAddr}
    (h : domainContains records ip = none) : ∀ x ∈ records, x.target ≠ ipToString ip := by
  intro x hx
  have := List.find?_eq_none.mp h x hx
  simpa using this

theorem find?_unique {α : Type} {p : α → Bool} {l : List α} {a : α}
    (ha : a ∈ l) (hpa : p a = true) (hu : ∀ x ∈ l, p x = true → x = a) :
    l.find? p = some a := by
  induction l with
  | nil => cases ha
  | cons x rest ih =>
    by_cases hx : p x = true
    · rw [List.find?_cons_of_pos _ hx]
      exact congrArg some (hu x (List.mem_cons_self x rest) hx)
    · rw [List.find?_cons_of_neg _ hx]
      rcases List.mem_cons.mp ha with h | h
      · exact absurd (h ▸ hpa) hx
      · exact ih h (fun y hy hpy => hu y (List.mem_cons_of_mem x hy) hpy)

theorem mem_diffPairs_deletes {records : List Record} {notInCidrs : List IpNetwork} {zone : String} {P : List (String × IpAddress)} {d : Record} :
    d ∈ (diffPairs records notInCidrs zone P).1 ↔
      ∃ q ∈ P, d ∈ (processAddress records notInCidrs zone q.1 q.2).1 := by
  simp only [diffPairs, List.mem_flatten, List.mem_map]
  constructor
  · rintro ⟨l, ⟨q, hq, rfl⟩, hd⟩
    exact ⟨q, hq, hd⟩
  · rintro ⟨q, hq, hd⟩
    exact ⟨_, ⟨q, hq, rfl⟩, hd⟩

theorem mem_diffPairs_creates {records : List Record} {notInCidrs : List IpNetwork} {zone : String} {P : List (String × IpAddress)} {c : Record} :
    c ∈ (diffPairs records notInCidrs zone P).2 ↔
      ∃ q ∈ P, c ∈ (processAddress records notInCidrs zone q.1 q.2).2 := by
  simp only [diffPairs, List.mem_flatten, List.mem_map]
  constructor
  · rintro ⟨l, ⟨q, hq, rfl⟩, hc⟩
    exact ⟨q, hq, hc⟩
  · rintro ⟨q, hq, hc⟩
    exact ⟨_, ⟨q, hq, rfl⟩, hc⟩

/-- After the apply, no surviving old record matches the value of an address
whose step deleted its match: the match was unique and was removed. -/
theorem filter_find_none_of_deleted {records : List Record} {notInCidrs : List IpNetwork} {zone : String} {P : List (String × IpAddress)}
    (H2 : (records.map Record.target).Nodup)
    {p : String × IpAddress} (hp : p ∈ P) {d : Record}
    (hd : d ∈ (processAddress records notInCidrs zone p.1 p.2).1) :
    (records.filter (fun r => ! (diffPairs records notInCidrs zone P).1.any (fun d => recordEq d r))).find?
      (fun r => r.target == ipToString p.2.ip) = none := by
  rw [List.find?_eq_none]
  intro x hx hpred
  have hxr := List.mem_filter.mp hx
  have hxt : x.target = ipToString p.2.ip := by simpa using hpred
  obtain ⟨hdR, hdt⟩ := domainContains_some (processAddress_deletes hd)
  have hxd : x = d := List.inj_on_of_nodup_map H2 hxr.1 hdR (by rw [hxt, hdt])
  have hdD : d ∈ (diffPairs records notInCidrs zone P).1 := mem_diffPairs_deletes.mpr ⟨p, hp, hd⟩
  have hany : (diffPairs records notInCidrs zone P).1.any (fun e => recordEq e x) = false := by
    have h := hxr.2
    simp only [Bool.not_eq_true'] at h
    exact h
  have := List.any_eq_false.mp hany d hdD
  rw [hxd] at this
  exact this (recordEq_refl d)

/-- After the apply, no surviving old record matches a value that had no
match before the apply either. -/
theorem filter_find_none_of_no_match {records : List Record} {notInCidrs : List IpNetwork} {zone : String} {P : List (String × IpAddress)} {ip : IpAddr}
    (hnone : domainContains records ip = none) :
    (records.filter (fun r => ! (diffPairs records notInCidrs zone P).1.any (fun d => recordEq d r))).find?
      (fun r => r.target == ipToString ip) = none := by
  rw [List.find?_eq_none]
  intro x hx hpred
  exact domainContains_none hnone x (List.mem_filter.mp hx).1 (by simpa using hpred)

/-- After the apply, the match of an address whose step deleted nothing
survives the filter and is still the first (and only) match. -/
theorem filter_find_some {records : List Record} {notInCidrs : List IpNetwork} {zone : String} {P : List (String × IpAddress)}
    (H1 : (P.map (fun q => ipToString q.2.ip)).Nodup)
    (H2 : (records.map Record.target).Nodup)
    {p : String × IpAddress} (hp : p ∈ P) {r : Record}
    (hr : domainContains records p.2.ip = some r)
    (hnd : (processAddress records notInCidrs zone p.1 p.2).1 = []) :
    (records.filter (fun r => ! (diffPairs records notInCidrs zone P).1.any (fun d => recordEq d r))).find?
      (fun x => x.target == ipToString p.2.ip) = some r := by
  obtain ⟨hrR, hrt⟩ := domainContains_some hr
  have hany : (diffPairs records notInCidrs zone P).1.any (fun e => recordEq e r) = false := by
    rw [List.any_eq_false]
    intro d hdD hde
    obtain ⟨q, hq, hdq⟩ := mem_diffPairs_deletes.mp hdD
    obtain ⟨hdR, hdt⟩ := domainContains_some (processAddress_deletes hdq)
    have hips : ipToString q.2.ip = ipToString p.2.ip := by
      rw [← hdt, recordEq_target hde, hrt]
    have hqp : q = p := List.inj_on_of_nodup_map H1 hq hp hips
    rw [hqp, hnd] at hdq
    cases hdq
  apply find?_unique
  · exact List.mem_filter.mpr ⟨hrR, by rw [hany]; rfl⟩
  · simp [hrt]
  · intro x hx hpx
    exact List.inj_on_of_nodup_map H2 (List.mem_filter.mp hx).1 hrR
      (by rw [(by simpa using hpx : x.target = ipToString p.2.ip), hrt])

/-- The created records contain no match for the value of an address whose
step created nothing. -/
theorem creates_find_none {records : List Record} {notInCidrs : List IpNetwork} {zone : String} {P : List (String × IpAddress)}
    (H1 : (P.map (fun q => ipToString q.2.ip)).Nodup)
    {p : String × IpAddress} (hp : p ∈ P)
    (hnc : (processAddress records notInCidrs zone p.1 p.2).2 = []) :
    (diffPairs records notInCidrs zone P).2.find? (fun x => x.target == ipToString p.2.ip) = none := by
  rw [List.find?_eq_none]
  intro c hc hpred
  obtain ⟨q, hq, hcq⟩ := mem_diffPairs_creates.mp hc
  obtain ⟨ft, hft, hceq⟩ := processAddress_creates hcq
  have hips : ipToString q.2.ip = ipToString p.2.ip := by
    rw [← (by rw [hceq] : c.target = ipToString q.2.ip)]
    simpa using hpred
  have hqp : q = p := List.inj_on_of_nodup_map H1 hq hp hips
  rw [hqp, hnc] at hcq
  cases hcq

/-- The created records contain exactly the record an address's step
created, as the first (and only) match for that value. -/
theorem creates_find_some {records : List Record} {notInCidrs : List IpNetwork} {zone : String} {P : List (String × IpAddress)}
    (H1 : (P.map (fun q => ipToString q.2.ip)).Nodup)
    {p : String × IpAddress} (hp : p ∈ P) {n : Record}
    (hnc : (processAddress records notInCidrs zone p.1 p.2).2 = [n]) :
    (diffPairs records notInCidrs zone P).2.find? (fun x => x.target == ipToString p.2.ip) = some n := by
  have hnp : n ∈ (processAddress records notInCidrs zone p.1 p.2).2 := by
    rw [hnc]
    exact List.mem_singleton.mpr rfl
  have hnt : n.target = ipToString p.2.ip := by
    obtain ⟨ft, hft, hne⟩ := processAddress_creates hnp
    rw [hne]
  apply find?_unique (mem_diffPairs_creates.mpr ⟨p, hp, hnp⟩) (by simp [hnt])
  intro c hc hpc
  obtain ⟨q, hq, hcq⟩ := mem_diffPairs_creates.mp hc
  obtain ⟨ft, hft, hceq⟩ := processAddress_creates hcq
  have hips : ipToString q.2.ip = ipToString p.2.ip := by
    rw [← (by rw [hceq] : c.target = ipToString q.2.ip)]
    simpa using hpc
  have hqp : q = p := List.inj_on_of_nodup_map H1 hq hp hips
  rw [hqp, hnc] at hcq
  exact List.mem_singleton.mp hcq

/-- Re-running the per-address step on the applied record set is a no-op,
provided the visited addresses have pairwise distinct textual values and the
original records pairwise distinct targets. -/
theorem processAddress_idem
    (records : List Record) (notInCidrs : List IpNetwork) (zone : String) (P : List (String × IpAddress))
    (H1 : (P.map (fun q => ipToString q.2.ip)).Nodup)
    (H2 : (records.map Record.target).Nodup)
    (p : String × IpAddress) (hp : p ∈ P) :
    processAddress
      (applyDiff records (diffPairs records notInCidrs zone P).1 (diffPairs records notInCidrs zone P).2)
      notInCidrs zone p.1 p.2 = ([], []) := by
  have hsplit : domainContains
      (applyDiff records (diffPairs records notInCidrs zone P).1 (diffPairs records notInCidrs zone P).2) p.2.ip
      = ((records.filter (fun r => ! (diffPairs records notInCidrs zone P).1.any (fun d => recordEq d r))).find?
          (fun r => r.target == ipToString p.2.ip)).or
        ((diffPairs records notInCidrs zone P).2.find? (fun r => r.target == ipToString p.2.ip)) := by
    simp only [domainContains, applyDiff, List.find?_append]
  by_cases hk : p.2.kind ≠ ("public")
  · have hnc : (processAddress records notInCidrs zone p.1 p.2).2 = [] := by
      simp only [processAddress]
      rw [if_pos hk]
    have hR2 : domainContains
        (applyDiff records (diffPairs records notInCidrs zone P).1 (diffPairs records notInCidrs zone P).2) p.2.ip = none := by
      cases hdc : domainContains records p.2.ip with
      | none =>
        rw [hsplit, filter_find_none_of_no_match hdc, creates_find_none H1 hp hnc]
        rfl
      | some r =>
        have hd : r ∈ (processAddress records notInCidrs zone p.1 p.2).1 := by
          simp only [processAddress]
          rw [if_pos hk, hdc]
          exact List.mem_singleton.mpr rfl
        rw [hsplit, filter_find_none_of_deleted H2 hp hd, creates_find_none H1 hp hnc]
        rfl
    simp only [processAddress]
    rw [if_pos hk, hR2]
    rfl
  · by_cases hcid : (netContains notInCidrs p.2.ip).isSome = true
    · have hnc : (processAddress records notInCidrs zone p.1 p.2).2 = [] := by
        simp only [processAddress]
        rw [if_neg hk, if_pos hcid]
      have hR2 : domainContains
          (applyDiff records (diffPairs records notInCidrs zone P).1 (diffPairs records notInCidrs zone P).2) p.2.ip = none := by
        cases hdc : domainContains records p.2.ip with
        | none =>
          rw [hsplit, filter_find_none_of_no_match hdc, creates_find_none H1 hp hnc]
          rfl
        | some r =>
          have hd : r ∈ (processAddress records notInCidrs zone p.1 p.2).1 := by
            simp only [processAddress]
            rw [if_neg hk, if_pos hcid, hdc]
            exact List.mem_singleton.mpr rfl
          rw [hsplit, filter_find_none_of_deleted H2 hp hd, creates_find_none H1 hp hnc]
          rfl
      simp only [processAddress]
      rw [if_neg hk, if_pos hcid, hR2]
      rfl
    · cases hft : fieldTypeOf p.2.version with
      | none =>
        simp only [processAddress]
        rw [if_neg hk, if_neg hcid, hft]
      | some ft =>
        cases hdc : domainContains records p.2.ip with
        | none =>
          have hnc : (processAddress records notInCidrs zone p.1 p.2).2 =
              [{ id := none, field_type := ft, sub_domain := trimEndMatches p.1 ((".") ++ zone),
                 ttl := none, zone := zone, target := ipToString p.2.ip }] := by
            simp only [processAddress]
            rw [if_neg hk, if_neg hcid, hft, hdc]
          have hR2 : domainContains
              (applyDiff records (diffPairs records notInCidrs zone P).1 (diffPairs records notInCidrs zone P).2) p.2.ip =
              some { id := none, field_type := ft, sub_domain := trimEndMatches p.1 ((".") ++ zone),
                     ttl := none, zone := zone, target := ipToString p.2.ip } := by
            rw [hsplit, filter_find_none_of_no_match hdc, creates_find_some H1 hp hnc]
            rfl
          simp only [processAddress]
          rw [if_neg hk, if_neg hcid, hft, hR2]
          dsimp only
          rw [if_neg (by simp [recordEq_refl])]
        | some r =>
          by_cases heq : recordEq r
              { id := none, field_type := ft, sub_domain := trimEndMatches p.1 ((".") ++ zone),
                ttl := none, zone := zone, target := ipToString p.2.ip } = true
          · have hnd : (processAddress records notInCidrs zone p.1 p.2).1 = [] := by
              simp only [processAddress]
              rw [if_neg hk, if_neg hcid, hft, hdc]
              dsimp only
              rw [if_neg (by simp [heq])]
            have hR2 : domainContains
                (applyDiff records (diffPairs records notInCidrs zone P).1 (diffPairs records notInCidrs zone P).2) p.2.ip =
                some r := by
              rw [hsplit, filter_find_some H1 H2 hp hdc hnd]
              rfl
            simp only [processAddress]
            rw [if_neg hk, if_neg hcid, hft, hR2]
            dsimp only
            rw [if_neg (by simp [heq])]
          · have hnd : r ∈ (processAddress records notInCidrs zone p.1 p.2).1 := by
              simp only [processAddress]
              rw [if_neg hk, if_neg hcid, hft, hdc]
              dsimp only
              rw [if_pos heq]
              exact List.mem_singleton.mpr rfl
            have hnc : (processAddress records notInCidrs zone p.1 p.2).2 =
                [{ id := none, field_type := ft, sub_domain := trimEndMatches p.1 ((".") ++ zone),
                   ttl := none, zone := zone, target := ipToString p.2.ip }] := by
              simp only [processAddress]
              rw [if_neg hk, if_neg hcid, hft, hdc]
              dsimp only
              rw [if_pos heq]
            have hR2 : domainContains
                (applyDiff records (diffPairs records notInCidrs zone P).1 (diffPairs records notInCidrs zone P).2) p.2.ip =
                some { id := none, field_type := ft, sub_domain := trimEndMatches p.1 ((".") ++ zone),
                       ttl := none, zone := zone, target := ipToString p.2.ip } := by
              rw [hsplit, filter_find_none_of_deleted H2 hp hnd, creates_find_some H1 hp hnc]
              rfl
            simp only [processAddress]
            rw [if_neg hk, if_neg hcid, hft, hR2]
            dsimp only
            rw [if_neg (by simp [recordEq_refl])]

/-- An address shared by two differently-named instances. -/
def addrShared : IpAddress :=
  { ip := IpAddr.v4 192 0 2 5, kind := ("public"), version := 4,
    network_id := ("n"), gateway_ip := none }

def instA : Instance :=
  { id := ("ia"), name := ("a"), ip_addresses := [addrShared], flavor_id := ("f"),
    image_id := ("g"), region := ("r"), status := ("s"), plan_code := ("p") }

def instB : Instance :=
  { id := ("ib"), name := ("b"), ip_addresses := [addrShared], flavor_id := ("f"),
    image_id := ("g"), region := ("r"), status := ("s"), plan_code := ("p") }

/-- Counterexample to C1 as stated: with two instances sharing one address
value, a second reconciliation on the post-apply record set is not empty —
the lookup always returns the first record matching the value, so the second
instance keeps replacing the first instance's record. -/
theorem C1_counterexample :
    syncDiff [instA, instB]
      (applyDiff [] (syncDiff [instA, instB] [] ("z") []).1 (syncDiff [instA, instB] [] ("z") []).2)
      ("z") [] ≠ ([], []) := by decide

/-- C1 amended: when the visited addresses have pairwise distinct textual
values and the existing records pairwise distinct targets, re-running the
reconciliation diff on the post-apply record set (previous records minus the
deleted ones plus the created ones) yields an empty `toDelete` and an empty
`toCreate`. -/
theorem C1_reconcile_idempotent (instances : List Instance) (records : List Record) (zone : String) (notInCidrs : List IpNetwork) :
    ((pairsOf instances).map (fun q => ipToString q.2.ip)).Nodup →
    (records.map Record.target).Nodup →
    syncDiff instances
      (applyDiff records (syncDiff instances records zone notInCidrs).1 (syncDiff instances records zone notInCidrs).2)
      zone notInCidrs = ([], []) := by
  intro H1 H2
  simp only [syncDiff_eq_diffPairs]
  have hnil : ∀ (applied : List Record),
      (∀ p ∈ pairsOf instances, processAddress applied notInCidrs zone p.1 p.2 = ([], [])) →
      diffPairs applied notInCidrs zone (pairsOf instances) = ([], []) := by
    intro applied h
    refine Prod.ext ?_ ?_
    · rw [show (diffPairs applied notInCidrs zone (pairsOf instances)).1 =
          ((pairsOf instances).map (fun p => (processAddress applied notInCidrs zone p.1 p.2).1)).flatten from rfl]
      rw [List.flatten_eq_nil_iff]
      intro l hl
      obtain ⟨p, hp, rfl⟩ := List.mem_map.mp hl
      rw [h p hp]
    · rw [show (diffPairs applied notInCidrs zone (pairsOf instances)).2 =
          ((pairsOf instances).map (fun p => (processAddress applied notInCidrs zone p.1 p.2).2)).flatten from rfl]
      rw [List.flatten_eq_nil_iff]
      intro l hl
      obtain ⟨p, hp, rfl⟩ := List.mem_map.mp hl
      rw [h p hp]
  exact hnil _ (fun p hp => processAddress_idem records notInCidrs zone (pairsOf instances) H1 H2 p hp)

def instW1 : Instance :=
  { id := ("i1"), name := ("web-01"), ip_addresses := [addrW7], flavor_id := ("f"),
    image_id := ("g"), region := ("r"), status := ("s"), plan_code := ("p") }

/-- Witness for C1 amended: a single instance with a fresh public address;
after applying the computed diff to an empty record set, a second diff is
empty. -/
theorem C1_reconcile_idempotent_witness :
    syncDiff [instW1]
      (applyDiff [] (syncDiff [instW1] [] ("example.com") []).1 (syncDiff [instW1] [] ("example.com") []).2)
      ("example.com") [] = ([], []) :=
  C1_reconcile_idempotent [instW1] [] ("example.com") [] (by decide) (by decide)

end Ovhctl
